import Mathlib

/-!
Verification of the Grok CLI permission and security gate.

This file gives a shallow embedding of the security-relevant code of the
repository (`grok/security.py`, `grok/tools.py`, `grok/config.py`,
`grok/agent.py`) and proves the testable properties stated for it.

Conventions of the embedding:
* Python strings are Lean `String`s; character-level work happens on
  `List Char` (Python indexes strings by code point, as `List Char` does).
* Python `time.time()` values are modelled as `Int` timestamps.
* Filesystem state (path resolution, file existence, sizes) is passed
  explicitly as parameters, since the Python code queries the OS for it.
* `re.sub`/`re.search` over the small fixed pattern set of the source are
  implemented directly as scanning functions with the leftmost,
  non-overlapping semantics of the Python `re` module.
-/

deriving instance DecidableEq for Except

namespace Grok

/-! ## Character and string utilities shared by the embedded components -/

/-- Case-insensitive character comparison, as used by `re.IGNORECASE`
(ASCII case folding; the source's patterns are all ASCII). -/
def lowerEq (a b : Char) : Bool :=
  a.toLower = b.toLower

/-- Predicate `startsWithCI pat cs`: the text `cs` starts with pattern `pat`,
case-insensitively. -/
def startsWithCI : List Char → List Char → Bool
  | [], _ => true
  | _ :: _, [] => false
  | p :: ps, c :: cs => lowerEq p c && startsWithCI ps cs

/-- Predicate `startsWithCS pre cs`: the text `cs` starts with `pre`, case-sensitively
(Python `str.startswith`). -/
def startsWithCS : List Char → List Char → Bool
  | [], _ => true
  | _ :: _, [] => false
  | p :: ps, c :: cs => (p == c) && startsWithCS ps cs

/-- Python `str.startswith` on whole strings. -/
def strStartsWith (s pre : String) : Bool :=
  startsWithCS pre.toList s.toList

/-- Python `str.lower` (ASCII folding; all inputs of interest are ASCII). -/
def pyLower (cs : List Char) : List Char :=
  cs.map Char.toLower

/-- Whitespace recognized by Python `str.split()` / `str.isspace()`:
the ASCII whitespace characters plus the Unicode space code points. -/
def isPySpace (c : Char) : Bool :=
  let n := c.toNat
  (0x09 ≤ n && n ≤ 0x0d) || n = 0x20 || (0x1c ≤ n && n ≤ 0x1f) ||
  n = 0x85 || n = 0xa0 || n = 0x1680 || (0x2000 ≤ n && n ≤ 0x200a) ||
  n = 0x2028 || n = 0x2029 || n = 0x202f || n = 0x205f || n = 0x3000

/-- Helper for `pySplit`: `cur` is the (reversed) word being accumulated. -/
def pySplitAux (cur : List Char) : List Char → List (List Char)
  | [] => if cur.isEmpty then [] else [cur.reverse]
  | c :: rest =>
    if isPySpace c then
      if cur.isEmpty then pySplitAux [] rest
      else cur.reverse :: pySplitAux [] rest
    else
      pySplitAux (c :: cur) rest

/-- Python `str.split()` with no argument: split on runs of whitespace,
discarding empty words. -/
def pySplit (cs : List Char) : List (List Char) :=
  pySplitAux [] cs

/-- Python `' '.join(words)`. -/
def joinSpace : List (List Char) → List Char
  | [] => []
  | [w] => w
  | w :: ws => w ++ ' ' :: joinSpace ws

/-- Python's `' '.join(s.split())` idiom for collapsing whitespace runs. -/
def normWs (cs : List Char) : List Char :=
  joinSpace (pySplit cs)

/-- Drop leading regex whitespace (`\s*`). -/
def dropWs : List Char → List Char
  | [] => []
  | c :: cs => if isPySpace c then dropWs cs else c :: cs

/-!
Section: `re.sub` engine

Each removal pattern of the source is compiled by hand into a `step`
function: `step cs = some rest` means the pattern matches at the start of
`cs` and `rest` is the text after the match.  `scanRemove` then applies
Python's `re.sub(pattern, '', text)` semantics: scan left to right, remove
each leftmost non-overlapping match, continue after the match's end.  The
`fuel` argument makes the recursion structural; `fuel = cs.length` is
always sufficient because every match of the source's patterns consumes at
least one character.
-/

/-- Driver for `re.sub(pat, '', ·)` (see section comment; call with
`fuel = cs.length`). -/
def scanRemove (step : List Char → Option (List Char)) : Nat → List Char → List Char
  | _, [] => []
  | 0, cs => cs
  | fuel + 1, c :: cs =>
    match step (c :: cs) with
    | some rest => scanRemove step fuel rest
    | none => c :: scanRemove step fuel cs

/-- Step function for a case-insensitive literal pattern. -/
def litStep (pat : List Char) (cs : List Char) : Option (List Char) :=
  if startsWithCI pat cs then some (cs.drop pat.length) else none

/-- Driver for `re.search(pat, ·)`: does `step` match at any position?
(`re.search` also tries the empty position at the end of the text.) -/
def matchesAnywhere (step : List Char → Option (List Char)) : List Char → Bool
  | [] => (step []).isSome
  | c :: cs => (step (c :: cs)).isSome || matchesAnywhere step cs

end Grok

namespace Grok.InputValidator

/-!
Section: `InputValidator` (security.py lines 80-105)

`dangerous_patterns` is the list
`[control characters, <script[^>]*>.*?</script>, javascript:, data:text/html]`,
each removed with `re.sub(pattern, '', text, flags=re.IGNORECASE)` in that
order, followed by `' '.join(text.split())`.
-/

/-- Source: `self.max_input_length = 10000`. -/
def max_input_length : Nat := 10000

/-- Membership in the character class
`[\x00-\x08\x0b\x0c\x0e-\x1f\x7f-\x9f]` (the first dangerous pattern). -/
def isCtrlRemoved (c : Char) : Bool :=
  let n := c.toNat
  n ≤ 0x08 || n = 0x0b || n = 0x0c || (0x0e ≤ n && n ≤ 0x1f) ||
  (0x7f ≤ n && n ≤ 0x9f)

/-- Removing every control character (`re.sub` of a single-character class
is exactly a filter). -/
def removeCtrl (cs : List Char) : List Char :=
  cs.filter fun c => !(isCtrlRemoved c)

/-- After the literal `<script`, `[^>]*>` deterministically consumes up to
and including the first `>`; returns the text after that `>`. -/
def dropToGt : List Char → Option (List Char)
  | [] => none
  | c :: cs => if c = '>' then some cs else dropToGt cs

/-- The lazy `.*?</script>` part: find the earliest occurrence of
`</script>` (case-insensitive) such that the skipped characters contain no
newline (`.` does not match `\n`); returns the text after the close tag. -/
def findCloseScript : List Char → Option (List Char)
  | [] => none
  | c :: cs =>
    if startsWithCI "</script>".toList (c :: cs) then
      some ((c :: cs).drop "</script>".toList.length)
    else if c = '\n' then none
    else findCloseScript cs

/-- Step function for `<script[^>]*>.*?</script>` (`re.IGNORECASE`). -/
def scriptStep (cs : List Char) : Option (List Char) :=
  if startsWithCI "<script".toList cs then
    match dropToGt (cs.drop "<script".toList.length) with
    | none => none
    | some afterGt => findCloseScript afterGt
  else none

/-- Pass `re.sub(r'<script[^>]*>.*?</script>', '', ·, flags=re.IGNORECASE)`. -/
def removeScript (cs : List Char) : List Char :=
  scanRemove scriptStep cs.length cs

/-- Pass `re.sub(r'javascript:', '', ·, flags=re.IGNORECASE)`. -/
def removeJsUrl (cs : List Char) : List Char :=
  scanRemove (litStep "javascript:".toList) cs.length cs

/-- Pass `re.sub(r'data:text/html', '', ·, flags=re.IGNORECASE)`. -/
def removeDataUrl (cs : List Char) : List Char :=
  scanRemove (litStep "data:text/html".toList) cs.length cs

/-- The four `re.sub` passes in source order, then whitespace
normalization. -/
def sanitizeList (cs : List Char) : List Char :=
  normWs (removeDataUrl (removeJsUrl (removeScript (removeCtrl cs))))

/-- Method `InputValidator.sanitize` (security.py lines 92-105).  Raising
`SecurityError` is modelled as `Except.error` carrying the exception
message. -/
def sanitize (s : String) : Except String String :=
  if max_input_length < s.toList.length then
    Except.error ("Input exceeds maximum length of " ++ toString max_input_length)
  else
    Except.ok (String.mk (sanitizeList s.toList))

end Grok.InputValidator

namespace Grok.CommandFilter

/-!
Section: `CommandFilter` (security.py lines 108-141)
-/

/-- Source: `self.dangerous_commands` (a Python set of strings). -/
def dangerous_commands : List String :=
  ["rm", "del", "format", "fdisk", "mkfs", "dd",
   "sudo", "su", "chmod", "chown", "passwd",
   "curl", "wget", "nc", "netcat", "telnet",
   "eval", "exec", "python -c", "perl -e"]

/-- Source: `cmd_parts = command.lower().split(); cmd_parts and cmd_parts[0] in
self.dangerous_commands` (security.py lines 132-133). -/
def hasDangerousFirstToken (command : String) : Bool :=
  match pySplit (pyLower command.toList) with
  | [] => false
  | t :: _ => dangerous_commands.contains (String.mk t)

/-- Step function for `;\s*rm\s+`. -/
def semiRmStep : List Char → Option (List Char)
  | [] => none
  | c :: cs =>
    if c = ';' then
      let r := dropWs cs
      match r with
      | a :: b :: w :: rest =>
        if lowerEq a 'r' && lowerEq b 'm' && isPySpace w then some rest else none
      | _ => none
    else none

/-- Step function for `&&\s*rm\s+`. -/
def andRmStep : List Char → Option (List Char)
  | c1 :: c2 :: cs =>
    if c1 = '&' && c2 = '&' then
      let r := dropWs cs
      match r with
      | a :: b :: w :: rest =>
        if lowerEq a 'r' && lowerEq b 'm' && isPySpace w then some rest else none
      | _ => none
    else none
  | _ => none

/-- Step function for `\|\s*sh\s*` (the trailing `\s*` matches empty). -/
def pipeShStep : List Char → Option (List Char)
  | [] => none
  | c :: cs =>
    if c = '|' then
      let r := dropWs cs
      match r with
      | a :: b :: rest =>
        if lowerEq a 's' && lowerEq b 'h' then some (dropWs rest) else none
      | _ => none
    else none

/-- Step function for `` `[^`]*` ``: a backtick, later closed by the next
backtick. -/
def backtickStep : List Char → Option (List Char)
  | [] => none
  | c :: cs =>
    if c = '\x60' then
      match dropToBacktick cs with
      | some rest => some rest
      | none => none
    else none
where
  /-- Consume up to and including the next backtick. -/
  dropToBacktick : List Char → Option (List Char)
    | [] => none
    | c :: cs => if c = '\x60' then some cs else dropToBacktick cs

/-- Step function for `\$\([^)]*\)`. -/
def dollarParenStep : List Char → Option (List Char)
  | c1 :: c2 :: cs =>
    if c1 = '$' && c2 = '(' then dropToClose cs else none
  | _ => none
where
  /-- Consume up to and including the next `)`. -/
  dropToClose : List Char → Option (List Char)
    | [] => none
    | c :: cs => if c = ')' then some cs else dropToClose cs

/-- Step function for `>\s*/dev/` (redirect to device files). -/
def gtDevStep : List Char → Option (List Char)
  | [] => none
  | c :: cs =>
    if c = '>' then
      let r := dropWs cs
      if startsWithCI "/dev/".toList r then some (r.drop 5) else none
    else none

/-- Step function for `<\s*/dev/` (read from device files). -/
def ltDevStep : List Char → Option (List Char)
  | [] => none
  | c :: cs =>
    if c = '<' then
      let r := dropWs cs
      if startsWithCI "/dev/".toList r then some (r.drop 5) else none
    else none

/-- Source: `any(re.search(pattern, command, re.IGNORECASE) for pattern in
self.dangerous_patterns)` (security.py lines 137-139). -/
def matchesDangerousPattern (command : String) : Bool :=
  let cs := command.toList
  matchesAnywhere semiRmStep cs || matchesAnywhere andRmStep cs ||
  matchesAnywhere pipeShStep cs || matchesAnywhere backtickStep cs ||
  matchesAnywhere dollarParenStep cs || matchesAnywhere gtDevStep cs ||
  matchesAnywhere ltDevStep cs

/-- Method `CommandFilter.is_allowed` (security.py lines 129-141). -/
def is_allowed (command : String) : Bool :=
  if hasDangerousFirstToken command then false
  else if matchesDangerousPattern command then false
  else true

end Grok.CommandFilter

namespace Grok.FileGuardian

/-!
Section: `FileGuardian` (security.py lines 144-184)

Path canonicalization (`Path(path).resolve()`) is an OS operation: it is
modelled by an explicit `resolve` function passed to `is_allowed`, mapping
the original path string to its canonical absolute form together with the
target's existence and size, or to `none` when resolution raises (the
source's `except Exception: return False` fail-closed branch).
-/

/-- The canonical form of a path together with the filesystem facts the
source queries about it (`.exists()`, `.stat().st_size`). -/
structure ResolvedPath where
  pathStr : String
  present : Bool
  size : Nat
  deriving DecidableEq

/-- Source: `self.restricted_paths`. -/
def restricted_paths : List String :=
  ["/etc", "/bin", "/sbin", "/usr/bin", "/usr/sbin",
   "/boot", "/dev", "/proc", "/sys", "/root",
   "C:\\Windows", "C:\\Program Files", "C:\\System32"]

/-- Source: `self.max_file_size = 100 * 1024 * 1024`. -/
def max_file_size : Nat := 100 * 1024 * 1024

/-- Source: `self.allowed_extensions`. -/
def allowed_extensions : List String :=
  [".txt", ".md", ".py", ".js", ".json", ".yaml", ".yml",
   ".toml", ".ini", ".cfg", ".conf", ".log", ".csv"]

/-- CPython `PurePath.suffix` of a canonical POSIX-style path string:
the part of the final component from its last dot, unless that dot is the
first or last character of the component. -/
def pySuffix (cs : List Char) : List Char :=
  let name := (cs.reverse.takeWhile fun c => c ≠ '/').reverse
  let ext := name.reverse.takeWhile fun c => c ≠ '.'
  if ext.length = name.length then []
  else if ext.length = 0 then []
  else if ext.length = name.length - 1 then []
  else '.' :: ext.reverse

/-- Method `FileGuardian.is_allowed` (security.py lines 160-184). -/
def is_allowed (resolve : String → Option ResolvedPath)
    (path operation : String) : Bool :=
  match resolve path with
  | none => false
  | some rp =>
    if restricted_paths.any (fun r => strStartsWith rp.pathStr r) then false
    else if (operation = "read" || operation = "write") &&
        !(allowed_extensions.contains
            (String.mk (pyLower (pySuffix rp.pathStr.toList)))) then false
    else if operation = "write" && rp.present &&
        decide (max_file_size < rp.size) then false
    else true

end Grok.FileGuardian

namespace Grok.RateLimiter

/-!
Section: `RateLimiter` (security.py lines 49-77)

`time.time()` values are modelled as `Int`; `self.requests` (a dict from
key to list of timestamps) as an association list.
-/

/-- The two predefined limit classes (`self.limits` keys). -/
inductive LimitType
  | api_calls
  | commands
  deriving DecidableEq

/-- Source: `self.limits[limit_type]['count']`. -/
def limitCount : LimitType → Nat
  | .api_calls => 100
  | .commands => 50

/-- Source: `self.limits[limit_type]['window']`. -/
def limitWindow : LimitType → Int
  | .api_calls => 3600
  | .commands => 300

/-- Source: `self.requests`. -/
structure State where
  requests : List (String × List Int)
  deriving DecidableEq

/-- Source: `self.requests.get(key, [])` (the source inserts `[]` for a missing
key before reading it, which is the same thing). -/
def lookupReqs (m : List (String × List Int)) (k : String) : List Int :=
  match m.find? (fun p => p.1 = k) with
  | some p => p.2
  | none => []

/-- Source: `self.requests[key] = v`. -/
def setReqs (m : List (String × List Int)) (k : String) (v : List Int) :
    List (String × List Int) :=
  match m with
  | [] => [(k, v)]
  | p :: rest => if p.1 = k then (k, v) :: rest else p :: setReqs rest k v

/-- The pruning step (security.py lines 66-70): keep the timestamps still
inside the window at `now`. -/
def prune (reqs : List Int) (lt : LimitType) (now : Int) : List Int :=
  reqs.filter fun t => now - t < limitWindow lt

/-- Method `RateLimiter.check_rate_limit` (security.py lines 59-77); returns the
boolean result and the updated `self.requests` state. -/
def check_rate_limit (st : State) (key : String) (lt : LimitType)
    (now : Int) : Bool × State :=
  let pruned := prune (lookupReqs st.requests key) lt now
  if limitCount lt ≤ pruned.length then
    (false, ⟨setReqs st.requests key pruned⟩)
  else
    (true, ⟨setReqs st.requests key (pruned ++ [now])⟩)

end Grok.RateLimiter

namespace Grok.Tools

/-!
Section: `handle_tool_call` (tools.py lines 119-268) — the `edit_file` and
`run_bash` branches

The handler's observable behaviour is modelled as the returned output
string (the `output` field of the tool-result dict) plus a trace of the
side-effecting and security-relevant calls it makes, in order.  Operator
answers (`click.prompt(...).lower()`) and subprocess results are inputs,
since they come from outside the function.
-/

open Grok.InputValidator Grok.CommandFilter Grok.FileGuardian

/-- The `mode` strings accepted by `/mode` (`default`, `auto-complete`,
`planning`); `get_mode` defaults to `default`. -/
inductive Mode
  | planning
  | defaultMode
  | autoComplete
  deriving DecidableEq

/-- The persisted permission document
(`{'allow': [...], 'deny': [...], 'allowed_cmds': {project: [...]}}`,
config.py line 63). -/
structure Permissions where
  allow : List String
  deny : List String
  allowedCmds : List (String × List String)
  deriving DecidableEq

/-- Source: `permissions.get('allowed_cmds', ...).get(project_dir, [])`. -/
def lookupCmds (m : List (String × List String)) (k : String) : List String :=
  match m.find? (fun p => p.1 = k) with
  | some p => p.2
  | none => []

/-- Source: `permissions['allowed_cmds'][project_dir] = old + [cmd]`. -/
def setCmds (m : List (String × List String)) (k : String)
    (v : List String) : List (String × List String) :=
  match m with
  | [] => [(k, v)]
  | p :: rest => if p.1 = k then (k, v) :: rest else p :: setCmds rest k v

/-- One observable step of the handler, in the order the source performs
them. -/
inductive Effect
  /-- Call `security_manager.validate_command(cmd)` -/
  | validateCommand (cmd : String)
  /-- Call `security_manager.validate_file_operation(path, op)` -/
  | validateFile (path op : String)
  /-- Call `security_manager.validate_input(content)` -/
  | sanitizePayload (content : String)
  /-- Call `security_manager.log_security_event(eventType, details)` -/
  | auditEvent (eventType : String) (details : List (String × String))
  /-- the `code --diff` temp-file preview subprocess -/
  | showDiff
  /-- Call `click.prompt(msg)` -/
  | promptOperator (msg : String)
  /-- Call `subprocess.check_output(cmd, shell=True)` -/
  | runCmd (cmd : String)
  /-- Call `open(full_path, 'w').write(content)` -/
  | writeFile (path content : String)
  /-- Call `update_permissions(permissions)` (persisted to settings.json) -/
  | persistPermissions (perms : Permissions)
  deriving DecidableEq

/-- Result of one `run_bash` tool call: output string, the permissions
dict after the call (the source mutates it in place), and the effect
trace. -/
structure BashResult where
  output : String
  perms : Permissions
  effects : List Effect
  deriving DecidableEq

/-- Inputs to `run_bash` that come from outside the handler: the current
working directory, the operator's (lowercased) answer if prompted, and
the text `subprocess.check_output` produces for a command (the source
catches exceptions and returns `str(e)`, so this is always a string). -/
structure BashEnv where
  projectDir : String
  choice : String
  runResult : String → String

/-- The `run_bash` branch of `handle_tool_call` (tools.py lines 171-213). -/
def handle_run_bash (cmd : String) (mode : Mode) (perms : Permissions)
    (env : BashEnv) : BashResult :=
  if mode = Mode.planning then
    ⟨"Plan to run bash: " ++ cmd, perms, []⟩
  else if CommandFilter.is_allowed cmd = false then
    ⟨"Command blocked for security reasons.", perms,
     [.validateCommand cmd,
      .auditEvent "command_blocked"
        [("command", cmd), ("reason", "dangerous_command"), ("tool", "run_bash")]]⟩
  else
    let allowedCmds := lookupCmds perms.allowedCmds env.projectDir
    if cmd ∈ perms.deny then
      ⟨"Command denied by permissions.", perms, [.validateCommand cmd]⟩
    else if cmd ∈ perms.allow ∨ cmd ∈ allowedCmds then
      ⟨env.runResult cmd, perms, [.validateCommand cmd, .runCmd cmd]⟩
    else
      let msg := "Run command '" ++ cmd ++
        "'? (y/ya [yes and don't ask again for this type in project]/n)"
      if env.choice = "y" then
        ⟨env.runResult cmd, perms,
         [.validateCommand cmd, .promptOperator msg, .runCmd cmd]⟩
      else if env.choice = "ya" then
        let perms' : Permissions :=
          { perms with
            allowedCmds := setCmds perms.allowedCmds env.projectDir
              (lookupCmds perms.allowedCmds env.projectDir ++ [cmd]) }
        ⟨env.runResult cmd, perms',
         [.validateCommand cmd, .promptOperator msg,
          .persistPermissions perms', .runCmd cmd]⟩
      else
        ⟨"Command interrupted.", perms,
         [.validateCommand cmd, .promptOperator msg]⟩

/-- Result of one `edit_file` tool call: output string and effect trace
(the permissions dict is not touched by this branch). -/
structure EditResult where
  output : String
  effects : List Effect
  deriving DecidableEq

/-- Inputs to `edit_file` that come from outside the handler: whether
`os.path.exists(full_path)` holds, the current file content, and the
operator's (lowercased) answer to the accept prompt. -/
structure EditEnv where
  fileExists : Bool
  originalContent : String
  accept : String

/-- The `edit_file` branch of `handle_tool_call` (tools.py lines 123-169).
`resolve` is the path-canonicalization oracle used by the
`FileGuardian` (see there). -/
def handle_edit_file (path content : String) (mode : Mode)
    (resolve : String → Option ResolvedPath) (env : EditEnv) : EditResult :=
  if mode = Mode.planning then
    ⟨"Plan to edit " ++ path ++ " with new content.", []⟩
  else if FileGuardian.is_allowed resolve path "write" = false then
    ⟨"File access denied for security reasons.",
     [.validateFile path "write",
      .auditEvent "file_access_denied"
        [("path", path), ("operation", "write"), ("tool", "edit_file")]]⟩
  else
    match InputValidator.sanitize content with
    | .error e =>
      ⟨"Input validation failed: " ++ e,
       [.validateFile path "write", .sanitizePayload content,
        .auditEvent "input_validation_failed"
          [("error", e), ("tool", "edit_file")]]⟩
    | .ok sanitized =>
      if env.fileExists = false then
        ⟨"File does not exist.",
         [.validateFile path "write", .sanitizePayload content]⟩
      else
        match mode with
        | .defaultMode =>
          if env.accept = "y" then
            ⟨"Edit applied.",
             [.validateFile path "write", .sanitizePayload content,
              .showDiff, .promptOperator "Accept changes? (y/n)",
              .writeFile path sanitized]⟩
          else
            ⟨"Edit rejected.",
             [.validateFile path "write", .sanitizePayload content,
              .showDiff, .promptOperator "Accept changes? (y/n)"]⟩
        | .autoComplete =>
          ⟨"Edit applied automatically.",
           [.validateFile path "write", .sanitizePayload content,
            .writeFile path sanitized]⟩
        | .planning =>
          -- Unreachable: `mode = planning` already returned above (the
          -- Python function would fall through to an implicit None).
          ⟨"", []⟩

/-- Recognizer for audit-log effects
(`security_manager.log_security_event` calls). -/
def isAuditEvent : Effect → Bool
  | .auditEvent _ _ => true
  | _ => false

/-- Number of audit-log events in a trace. -/
def countAudits (fx : List Effect) : Nat :=
  fx.countP isAuditEvent

end Grok.Tools

namespace Grok.Agent

/-!
Section: `fetch_from_mcp` (agent.py lines 39-71) — result classification

The claim of interest concerns how the function turns the subprocess's
streams into its return value (agent.py lines 55-68).  The subprocess's
stdout/stderr text is an input; the outcome of the `try: json.loads ...`
block is abstracted into `JsonOutcome` (`parseFail` covers both a JSON
parse error and the `TypeError` field access on a non-object raises,
since any exception lands in the bare `except:`).
-/

/-- Outcome of `json.loads(output)` plus the field accesses on it. -/
inductive JsonOutcome
  /-- Call `json.loads` (or the subsequent field access) raised -/
  | parseFail
  /-- a JSON object with an `error` field -/
  | objWithError (detail : String)
  /-- a JSON object without an `error` field; carries `res.get('result')` -/
  | objOk (result : Option String)
  deriving DecidableEq

/-- The stream-to-result logic of `fetch_from_mcp` (agent.py lines 60-68):
nonempty stderr wins, then the parsed object's `error` field, then
`res.get('result', '')`; a parse failure returns the raw stdout text. -/
def mcp_result (stdoutText stderrText : String) (parsed : JsonOutcome) : String :=
  if stderrText = "" then
    match parsed with
    | .parseFail => stdoutText
    | .objWithError e => "Error: " ++ e
    | .objOk r => r.getD ""
  else
    "Error: " ++ stderrText

end Grok.Agent

namespace Grok

/-! ## Helper lemmas -/

open Grok.Tools Grok.RateLimiter

/-- A list starts with itself. -/
theorem startsWithCS_refl : ∀ l : List Char, startsWithCS l l = true
  | [] => rfl
  | c :: cs => by simp [startsWithCS, startsWithCS_refl cs]

/-- If a text starts with `p ++ q` then it starts with `p`. -/
theorem startsWithCS_of_append : ∀ (p q t : List Char),
    startsWithCS (p ++ q) t = true → startsWithCS p t = true
  | [], _, _, _ => rfl
  | a :: p, q, [], h => by simp [startsWithCS] at h
  | a :: p, q, c :: t, h => by
    simp only [List.cons_append, startsWithCS, Bool.and_eq_true] at h ⊢
    exact ⟨h.1, startsWithCS_of_append p q t h.2⟩

/-- Updating a key and reading it back (rate-limiter dict). -/
theorem lookupReqs_setReqs (m : List (String × List Int)) (k : String)
    (v : List Int) : lookupReqs (setReqs m k v) k = v := by
  induction m with
  | nil => simp [setReqs, lookupReqs, List.find?]
  | cons p rest ih =>
    by_cases h : p.1 = k
    · simp [setReqs, h, lookupReqs, List.find?]
    · simp only [setReqs, if_neg h]
      simpa [lookupReqs, List.find?, h] using ih

/-- Updating a key and reading it back (remembered-commands dict). -/
theorem lookupCmds_setCmds (m : List (String × List String)) (k : String)
    (v : List String) : lookupCmds (setCmds m k v) k = v := by
  induction m with
  | nil => simp [setCmds, lookupCmds, List.find?]
  | cons p rest ih =>
    by_cases h : p.1 = k
    · simp [setCmds, h, lookupCmds, List.find?]
    · simp only [setCmds, if_neg h]
      simpa [lookupCmds, List.find?, h] using ih

/-- A `re.sub` pass over text the pattern does not match leaves the text
unchanged. -/
theorem scanRemove_of_no_match (step : List Char → Option (List Char)) :
    ∀ (cs : List Char) (fuel : Nat), cs.length ≤ fuel →
      matchesAnywhere step cs = false → scanRemove step fuel cs = cs := by
  intro cs
  induction cs with
  | nil => intro fuel _ _; cases fuel <;> rfl
  | cons c cs ih =>
    intro fuel hlen hnm
    simp only [matchesAnywhere, Bool.or_eq_false_iff] at hnm
    obtain ⟨h1, h2⟩ := hnm
    match fuel with
    | 0 => simp at hlen
    | f + 1 =>
      have hstep : step (c :: cs) = none := Option.not_isSome_iff_eq_none.mp (by simp [h1])
      simp only [scanRemove, hstep]
      rw [ih f (by simpa using hlen) h2]

/-! ## Claims -/

/-- C1: Deny precedence. A command whose first whitespace-delimited token
(lowercased) is in the dangerous set, or that matches a
structural-injection pattern, fails `CommandFilter.is_allowed`; and any
command that fails the static filter or sits in the deny-list is refused
by the `run_bash` handler — never executed — regardless of the allow-list
and remembered-commands contents of `perms`. -/
theorem c1_deny_precedence (cmd : String) (mode : Tools.Mode)
    (perms : Tools.Permissions) (env : Tools.BashEnv)
    (hmode : mode ≠ Tools.Mode.planning)
    (h : CommandFilter.hasDangerousFirstToken cmd = true ∨
         CommandFilter.matchesDangerousPattern cmd = true ∨
         cmd ∈ perms.deny) :
    (CommandFilter.hasDangerousFirstToken cmd = true ∨
       CommandFilter.matchesDangerousPattern cmd = true →
       CommandFilter.is_allowed cmd = false) ∧
    (∀ c, Tools.Effect.runCmd c ∉
       (Tools.handle_run_bash cmd mode perms env).effects) ∧
    ((Tools.handle_run_bash cmd mode perms env).output =
       "Command blocked for security reasons." ∨
     (Tools.handle_run_bash cmd mode perms env).output =
       "Command denied by permissions.") := by
  have hstatic : CommandFilter.hasDangerousFirstToken cmd = true ∨
      CommandFilter.matchesDangerousPattern cmd = true →
      CommandFilter.is_allowed cmd = false := by
    intro hs
    unfold CommandFilter.is_allowed
    rcases hs with hs | hs
    · simp [hs]
    · simp [hs]
  refine ⟨hstatic, ?_, ?_⟩ <;>
  · by_cases hall : CommandFilter.is_allowed cmd = false
    · simp [Tools.handle_run_bash, hmode, hall]
    · have hdeny : cmd ∈ perms.deny := by
        rcases h with hs | hs | hs
        · exact absurd (hstatic (Or.inl hs)) hall
        · exact absurd (hstatic (Or.inr hs)) hall
        · exact hs
      simp [Tools.handle_run_bash, hmode, hall, hdeny]

/-- C1 witness: `"sudo rm -rf /"` is statically dangerous and is refused
even though it is in both the allow-list and the project's
remembered-commands set. -/
theorem c1_deny_precedence_witness :
    CommandFilter.is_allowed "sudo rm -rf /" = false ∧
    (∀ c, Tools.Effect.runCmd c ∉
       (Tools.handle_run_bash "sudo rm -rf /" Tools.Mode.defaultMode
          ⟨["sudo rm -rf /"], [], [("/proj", ["sudo rm -rf /"])]⟩
          ⟨"/proj", "y", fun _ => ""⟩).effects) := by
  have h := c1_deny_precedence "sudo rm -rf /" Tools.Mode.defaultMode
    ⟨["sudo rm -rf /"], [], [("/proj", ["sudo rm -rf /"])]⟩
    ⟨"/proj", "y", fun _ => ""⟩ (by decide) (Or.inl (by decide))
  exact ⟨h.1 (Or.inl (by decide)), h.2.1⟩

/-- C2: Planning-mode short-circuit. In `planning` mode both the
`run_bash` and `edit_file` branches of the handler return a textual plan
record with an empty effect trace: no security check, permission lookup,
prompt, subprocess, or file write happens. -/
theorem c2_planning_short_circuit (cmd path content : String)
    (perms : Tools.Permissions) (benv : Tools.BashEnv)
    (resolve : String → Option FileGuardian.ResolvedPath)
    (eenv : Tools.EditEnv) :
    Tools.handle_run_bash cmd Tools.Mode.planning perms benv =
      ⟨"Plan to run bash: " ++ cmd, perms, []⟩ ∧
    Tools.handle_edit_file path content Tools.Mode.planning resolve eenv =
      ⟨"Plan to edit " ++ path ++ " with new content.", []⟩ :=
  ⟨rfl, rfl⟩

/-- C4: Restricted-root denial. If a path's canonical resolution lies
under a configured restricted root (equal to it, or inside it), the
`FileGuardian` denies the operation, whatever the operation string and
however the original path was spelled. -/
theorem c4_restricted_root (resolve : String → Option FileGuardian.ResolvedPath)
    (path operation root : String) (rp : FileGuardian.ResolvedPath)
    (hres : resolve path = some rp)
    (hroot : root ∈ FileGuardian.restricted_paths)
    (hunder : rp.pathStr = root ∨
              strStartsWith rp.pathStr (root ++ "/") = true) :
    FileGuardian.is_allowed resolve path operation = false := by
  have hsw : strStartsWith rp.pathStr root = true := by
    rcases hunder with hu | hu
    · unfold strStartsWith
      rw [hu]
      exact startsWithCS_refl _
    · unfold strStartsWith at hu ⊢
      have hdata : (root ++ "/").toList = root.toList ++ "/".toList := by
        simp [String.toList, String.data_append root "/"]
      rw [hdata] at hu
      exact startsWithCS_of_append _ _ _ hu
  have hany : FileGuardian.restricted_paths.any
      (fun r => strStartsWith rp.pathStr r) = true :=
    List.any_eq_true.mpr ⟨root, hroot, hsw⟩
  unfold FileGuardian.is_allowed
  rw [hres]
  simp [hany]

/-- C4 witness: a `..`-spelled path resolving to `/etc/passwd` is denied
for the `read` operation. -/
theorem c4_restricted_root_witness :
    FileGuardian.is_allowed (fun _ => some ⟨"/etc/passwd", true, 42⟩)
      "../../etc/passwd" "read" = false :=
  c4_restricted_root (fun _ => some ⟨"/etc/passwd", true, 42⟩)
    "../../etc/passwd" "read" "/etc" ⟨"/etc/passwd", true, 42⟩
    rfl (by decide) (Or.inr (by decide))

/-- C5: Rate-limiter ceiling. If, after pruning expired entries, the
stored timestamps for a key already reach the class ceiling, the call
returns `false` and the stored sequence is exactly the pruned one (nothing
new recorded); and once the window has elapsed past every recorded
timestamp, a call returns `true` again. -/
theorem c5_rate_limiter_ceiling (st : RateLimiter.State) (key : String)
    (lt : RateLimiter.LimitType) (now : Int) :
    (RateLimiter.limitCount lt ≤
        (RateLimiter.prune (RateLimiter.lookupReqs st.requests key) lt now).length →
       (RateLimiter.check_rate_limit st key lt now).1 = false ∧
       RateLimiter.lookupReqs
           (RateLimiter.check_rate_limit st key lt now).2.requests key =
         RateLimiter.prune (RateLimiter.lookupReqs st.requests key) lt now) ∧
    ((∀ t ∈ RateLimiter.lookupReqs st.requests key,
        RateLimiter.limitWindow lt ≤ now - t) →
       (RateLimiter.check_rate_limit st key lt now).1 = true) := by
  constructor
  · intro hfull
    unfold RateLimiter.check_rate_limit
    rw [if_pos hfull]
    exact ⟨rfl, lookupReqs_setReqs _ _ _⟩
  · intro hold
    have hnil : RateLimiter.prune (RateLimiter.lookupReqs st.requests key) lt now = [] := by
      unfold RateLimiter.prune
      refine List.filter_eq_nil_iff.mpr ?_
      intro t ht
      have := hold t ht
      simp only [decide_eq_true_eq]
      omega
    have hpos : 0 < RateLimiter.limitCount lt := by cases lt <;> decide
    unfold RateLimiter.check_rate_limit
    rw [hnil, if_neg (by simpa using Nat.not_le.mpr hpos)]

/-- C5 witness: with the `commands` class (ceiling 50, window 300), a key
holding 50 in-window timestamps is refused and its stored sequence is
unchanged; a key whose entries are all at least one window old is accepted
again. -/
theorem c5_rate_limiter_ceiling_witness :
    ((RateLimiter.check_rate_limit ⟨[("k", List.replicate 50 0)]⟩ "k"
        RateLimiter.LimitType.commands 10).1 = false ∧
     RateLimiter.lookupReqs
         (RateLimiter.check_rate_limit ⟨[("k", List.replicate 50 0)]⟩ "k"
            RateLimiter.LimitType.commands 10).2.requests "k" =
       RateLimiter.prune
         (RateLimiter.lookupReqs [("k", List.replicate 50 0)] "k")
         RateLimiter.LimitType.commands 10) ∧
    (RateLimiter.check_rate_limit ⟨[("k", [0, 5])]⟩ "k"
        RateLimiter.LimitType.commands 400).1 = true := by
  constructor
  · exact (c5_rate_limiter_ceiling ⟨[("k", List.replicate 50 0)]⟩ "k"
      RateLimiter.LimitType.commands 10).1 (by decide)
  · exact (c5_rate_limiter_ceiling ⟨[("k", [0, 5])]⟩ "k"
      RateLimiter.LimitType.commands 400).2 (by decide)

/-- C6 counterexample: stdout that does not parse as JSON is returned raw
as the call's result, not surfaced as a failure — refuting the claim that
a non-JSON response yields an error result. -/
theorem c6_counterexample :
    Agent.mcp_result "not json" "" Agent.JsonOutcome.parseFail = "not json" := rfl

/-- C6 amended: with empty stderr, a JSON object carrying an `error` field
surfaces `"Error: " ++ detail`; a non-JSON stdout is returned verbatim as
the (success-shaped) result; nonempty stderr surfaces
`"Error: " ++ stderr`. -/
theorem c6_amended_bridge_failures (out err : String)
    (parsed : Agent.JsonOutcome) :
    (err = "" → ∀ e, parsed = Agent.JsonOutcome.objWithError e →
       Agent.mcp_result out err parsed = "Error: " ++ e) ∧
    (err = "" → parsed = Agent.JsonOutcome.parseFail →
       Agent.mcp_result out err parsed = out) ∧
    (err ≠ "" → Agent.mcp_result out err parsed = "Error: " ++ err) := by
  refine ⟨?_, ?_, ?_⟩
  · intro he e hp
    subst he; subst hp
    rfl
  · intro he hp
    subst he; subst hp
    rfl
  · intro he
    unfold Agent.mcp_result
    rw [if_neg he]

/-- C6 witness: the Scenario-D response `{"error":"not found"}` surfaces
`"Error: not found"`. -/
theorem c6_amended_bridge_failures_witness :
    Agent.mcp_result "resp" ""
      (Agent.JsonOutcome.objWithError "not found") = "Error: not found" :=
  (c6_amended_bridge_failures _ "" _).1 rfl "not found" rfl

/-- C3 counterexample: a command denied through the permission deny-list
is a terminal denial that emits no audit event at all, refuting "every
terminal decision emits exactly one audit-log event". -/
theorem c3_counterexample :
    (Tools.handle_run_bash "ls" Tools.Mode.defaultMode ⟨[], ["ls"], []⟩
       ⟨"/proj", "y", fun _ => ""⟩).output = "Command denied by permissions." ∧
    Tools.countAudits
      (Tools.handle_run_bash "ls" Tools.Mode.defaultMode ⟨[], ["ls"], []⟩
         ⟨"/proj", "y", fun _ => ""⟩).effects = 0 := by
  constructor <;> rfl

/-- C3 amended: in non-planning modes the handler emits exactly one audit
event when (and only when) a static security check denies — a blocked
command, a denied file operation, or a failed payload validation; terminal
decisions reached past the static checks (execution, permission-list
denial, operator rejection or acceptance) emit none. -/
theorem c3_audit_on_static_denial_only (cmd path content : String)
    (mode : Tools.Mode) (perms : Tools.Permissions) (benv : Tools.BashEnv)
    (resolve : String → Option FileGuardian.ResolvedPath)
    (eenv : Tools.EditEnv) (hmode : mode ≠ Tools.Mode.planning) :
    Tools.countAudits (Tools.handle_run_bash cmd mode perms benv).effects =
      (if CommandFilter.is_allowed cmd = true then 0 else 1) ∧
    Tools.countAudits
        (Tools.handle_edit_file path content mode resolve eenv).effects =
      (if FileGuardian.is_allowed resolve path "write" = false then 1
       else if (InputValidator.sanitize content).isOk then 0 else 1) := by
  constructor
  · by_cases hall : CommandFilter.is_allowed cmd = true
    · rw [if_pos hall]
      have hall' : ¬ (CommandFilter.is_allowed cmd = false) := by simp [hall]
      by_cases hd : cmd ∈ perms.deny
      · simp [Tools.handle_run_bash, hmode, hall', hd, Tools.countAudits,
          Tools.isAuditEvent]
      · by_cases ha : cmd ∈ perms.allow ∨
            cmd ∈ Tools.lookupCmds perms.allowedCmds benv.projectDir
        · simp [Tools.handle_run_bash, hmode, hall', hd, ha, Tools.countAudits,
            Tools.isAuditEvent]
        · by_cases hy : benv.choice = "y"
          · simp [Tools.handle_run_bash, hmode, hall', hd, ha, hy,
              Tools.countAudits, Tools.isAuditEvent]
          · by_cases hya : benv.choice = "ya"
            · simp [Tools.handle_run_bash, hmode, hall', hd, ha, hy, hya,
                Tools.countAudits, Tools.isAuditEvent]
            · simp [Tools.handle_run_bash, hmode, hall', hd, ha, hy, hya,
                Tools.countAudits, Tools.isAuditEvent]
    · have hall' : CommandFilter.is_allowed cmd = false := by
        revert hall; cases CommandFilter.is_allowed cmd <;> simp
      rw [if_neg (by simp [hall'])]
      simp [Tools.handle_run_bash, hmode, hall', Tools.countAudits,
        Tools.isAuditEvent]
  · by_cases hg : FileGuardian.is_allowed resolve path "write" = false
    · rw [if_pos hg]
      simp [Tools.handle_edit_file, hmode, hg, Tools.countAudits,
        Tools.isAuditEvent]
    · rw [if_neg hg]
      cases hs : InputValidator.sanitize content with
      | error e =>
        rw [if_neg (by simp [hs, Except.isOk, Except.toBool])]
        simp [Tools.handle_edit_file, hmode, hg, hs, Tools.countAudits,
          Tools.isAuditEvent]
      | ok sc =>
        rw [if_pos (by simp [hs, Except.isOk, Except.toBool])]
        by_cases he : eenv.fileExists = false
        · simp [Tools.handle_edit_file, hmode, hg, hs, he, Tools.countAudits,
            Tools.isAuditEvent]
        · cases mode with
          | planning => exact absurd rfl hmode
          | defaultMode =>
            by_cases hy : eenv.accept = "y" <;>
              simp [Tools.handle_edit_file, hmode, hg, hs, he, hy,
                Tools.countAudits, Tools.isAuditEvent]
          | autoComplete =>
            simp [Tools.handle_edit_file, hmode, hg, hs, he, Tools.countAudits,
              Tools.isAuditEvent]

/-- C3 amended witness: a statically blocked command logs exactly one
audit event; an executed allow-listed command logs none. -/
theorem c3_audit_on_static_denial_only_witness :
    Tools.countAudits
      (Tools.handle_run_bash "rm -rf /" Tools.Mode.defaultMode ⟨[], [], []⟩
         ⟨"/proj", "y", fun _ => ""⟩).effects = 1 ∧
    Tools.countAudits
      (Tools.handle_edit_file "f.txt" "hi" Tools.Mode.autoComplete
         (fun _ => some ⟨"/w/f.txt", true, 0⟩) ⟨true, "old", "y"⟩).effects = 0 := by
  constructor
  · have h := (c3_audit_on_static_denial_only "rm -rf /" "f.txt" "hi"
      Tools.Mode.defaultMode ⟨[], [], []⟩ ⟨"/proj", "y", fun _ => ""⟩
      (fun _ => some ⟨"/w/f.txt", true, 0⟩) ⟨true, "old", "y"⟩ (by decide)).1
    rwa [if_neg (by decide)] at h
  · have h := (c3_audit_on_static_denial_only "rm -rf /" "f.txt" "hi"
      Tools.Mode.autoComplete ⟨[], [], []⟩ ⟨"/proj", "y", fun _ => ""⟩
      (fun _ => some ⟨"/w/f.txt", true, 0⟩) ⟨true, "old", "y"⟩ (by decide)).2
    rw [if_neg (by decide), if_pos (by decide)] at h
    exact h

/-- C10: In non-planning modes, an `edit_file` whose target does not exist
writes nothing; once the file-guardian check and payload sanitization have
passed, the reported outcome is exactly "File does not exist.", while a
failed guardian check is reported as the earlier access-denial outcome. -/
theorem c10_missing_file (path content : String) (mode : Tools.Mode)
    (resolve : String → Option FileGuardian.ResolvedPath)
    (env : Tools.EditEnv) (hmode : mode ≠ Tools.Mode.planning)
    (hne : env.fileExists = false) :
    (∀ p c, Tools.Effect.writeFile p c ∉
       (Tools.handle_edit_file path content mode resolve env).effects) ∧
    (FileGuardian.is_allowed resolve path "write" = true →
       ∀ sc, InputValidator.sanitize content = Except.ok sc →
       (Tools.handle_edit_file path content mode resolve env).output =
         "File does not exist.") ∧
    (FileGuardian.is_allowed resolve path "write" = false →
       (Tools.handle_edit_file path content mode resolve env).output =
         "File access denied for security reasons.") := by
  refine ⟨?_, ?_, ?_⟩
  · intro p c
    by_cases hg : FileGuardian.is_allowed resolve path "write" = false
    · simp [Tools.handle_edit_file, hmode, hg]
    · cases hs : InputValidator.sanitize content with
      | error e => simp [Tools.handle_edit_file, hmode, hg, hs]
      | ok sc => simp [Tools.handle_edit_file, hmode, hg, hs, hne]
  · intro hg sc hs
    have hg' : ¬ (FileGuardian.is_allowed resolve path "write" = false) := by
      simp [hg]
    simp [Tools.handle_edit_file, hmode, hg', hs, hne]
  · intro hg
    simp [Tools.handle_edit_file, hmode, hg]

/-- C10 witness: a guardian-approved, sanitizer-approved edit of a
non-existent `.txt` file reports "File does not exist." and performs no
write. -/
theorem c10_missing_file_witness :
    (∀ p c, Tools.Effect.writeFile p c ∉
       (Tools.handle_edit_file "f.txt" "hi" Tools.Mode.defaultMode
          (fun _ => some ⟨"/w/f.txt", false, 0⟩) ⟨false, "", "y"⟩).effects) ∧
    (Tools.handle_edit_file "f.txt" "hi" Tools.Mode.defaultMode
       (fun _ => some ⟨"/w/f.txt", false, 0⟩) ⟨false, "", "y"⟩).output =
      "File does not exist." := by
  have h := c10_missing_file "f.txt" "hi" Tools.Mode.defaultMode
    (fun _ => some ⟨"/w/f.txt", false, 0⟩) ⟨false, "", "y"⟩ (by decide) rfl
  exact ⟨h.1, h.2.1 (by decide) "hi" (by decide)⟩

/-- C9: Whenever the `edit_file` handler writes the target file, the
content written is the sanitizer's output for the proposed payload — so
the raw payload lands verbatim exactly when it is already in sanitized
form. -/
theorem c9_writes_sanitized_payload (path content p c : String)
    (mode : Tools.Mode) (resolve : String → Option FileGuardian.ResolvedPath)
    (env : Tools.EditEnv)
    (hw : Tools.Effect.writeFile p c ∈
       (Tools.handle_edit_file path content mode resolve env).effects) :
    InputValidator.sanitize content = Except.ok c ∧
    (c = content ↔ InputValidator.sanitize content = Except.ok content) := by
  have hc : InputValidator.sanitize content = Except.ok c := by
    by_cases hm : mode = Tools.Mode.planning
    · simp [Tools.handle_edit_file, hm] at hw
    · by_cases hg : FileGuardian.is_allowed resolve path "write" = false
      · simp [Tools.handle_edit_file, hm, hg] at hw
      · cases hs : InputValidator.sanitize content with
        | error e => simp [Tools.handle_edit_file, hm, hg, hs] at hw
        | ok sc =>
          by_cases he : env.fileExists = false
          · simp [Tools.handle_edit_file, hm, hg, hs, he] at hw
          · cases mode with
            | planning => exact absurd rfl hm
            | defaultMode =>
              by_cases hy : env.accept = "y"
              · simp [Tools.handle_edit_file, hm, hg, hs, he, hy] at hw
                rw [hw.2]
              · simp [Tools.handle_edit_file, hm, hg, hs, he, hy] at hw
            | autoComplete =>
              simp [Tools.handle_edit_file, hm, hg, hs, he] at hw
              rw [hw.2]
  refine ⟨hc, ?_, ?_⟩
  · intro hcc
    rwa [hcc] at hc
  · intro hok
    rw [hok] at hc
    exact (Except.ok.inj hc).symm

/-- C9 witness: an auto-applied edit whose payload contains a tab writes
the whitespace-collapsed sanitized form, not the raw payload. -/
theorem c9_writes_sanitized_payload_witness :
    InputValidator.sanitize "a\tb" = Except.ok "a b" ∧
    ("a b" = "a\tb" ↔
      InputValidator.sanitize "a\tb" = Except.ok "a\tb") :=
  c9_writes_sanitized_payload "f.txt" "a\tb" "f.txt" "a b"
    Tools.Mode.autoComplete (fun _ => some ⟨"/w/f.txt", true, 0⟩)
    ⟨true, "old", "y"⟩ (by decide)

/-- C8: Remember-and-reuse. In default (confirm-each) mode with empty
allow/deny lists and no remembered commands for the project, a
filter-approved command escalates to the operator prompt; answering
`"ya"` executes it, stores it in the project's remembered-commands set and
persists the permissions; an identical later command in the same project
directory then executes with no operator prompt. -/
theorem c8_remember_and_reuse (cmd : String) (perms : Tools.Permissions)
    (env env2 : Tools.BashEnv)
    (hsafe : CommandFilter.is_allowed cmd = true)
    (hallow : perms.allow = []) (hdeny : perms.deny = [])
    (hnone : Tools.lookupCmds perms.allowedCmds env.projectDir = [])
    (hchoice : env.choice = "ya")
    (hproj : env2.projectDir = env.projectDir) :
    (Tools.handle_run_bash cmd Tools.Mode.defaultMode perms env).effects =
      [Tools.Effect.validateCommand cmd,
       Tools.Effect.promptOperator ("Run command '" ++ cmd ++
         "'? (y/ya [yes and don't ask again for this type in project]/n)"),
       Tools.Effect.persistPermissions
         (Tools.handle_run_bash cmd Tools.Mode.defaultMode perms env).perms,
       Tools.Effect.runCmd cmd] ∧
    (Tools.handle_run_bash cmd Tools.Mode.defaultMode perms env).output =
      env.runResult cmd ∧
    cmd ∈ Tools.lookupCmds
      (Tools.handle_run_bash cmd Tools.Mode.defaultMode perms env).perms.allowedCmds
      env.projectDir ∧
    (Tools.handle_run_bash cmd Tools.Mode.defaultMode
        (Tools.handle_run_bash cmd Tools.Mode.defaultMode perms env).perms
        env2).effects =
      [Tools.Effect.validateCommand cmd, Tools.Effect.runCmd cmd] ∧
    (Tools.handle_run_bash cmd Tools.Mode.defaultMode
        (Tools.handle_run_bash cmd Tools.Mode.defaultMode perms env).perms
        env2).output = env2.runResult cmd := by
  have hsafe' : ¬ (CommandFilter.is_allowed cmd = false) := by simp [hsafe]
  have hya : ¬ (env.choice = "y") := by rw [hchoice]; decide
  have hr1 : Tools.handle_run_bash cmd Tools.Mode.defaultMode perms env =
      ⟨env.runResult cmd,
       { perms with
         allowedCmds := Tools.setCmds perms.allowedCmds env.projectDir
           (Tools.lookupCmds perms.allowedCmds env.projectDir ++ [cmd]) },
       [Tools.Effect.validateCommand cmd,
        Tools.Effect.promptOperator ("Run command '" ++ cmd ++
          "'? (y/ya [yes and don't ask again for this type in project]/n)"),
        Tools.Effect.persistPermissions
          { perms with
            allowedCmds := Tools.setCmds perms.allowedCmds env.projectDir
              (Tools.lookupCmds perms.allowedCmds env.projectDir ++ [cmd]) },
        Tools.Effect.runCmd cmd]⟩ := by
    simp [Tools.handle_run_bash, hsafe', hdeny, hallow, hnone, hya, hchoice]
  have hmem : cmd ∈ Tools.lookupCmds
      (Tools.handle_run_bash cmd Tools.Mode.defaultMode perms env).perms.allowedCmds
      env.projectDir := by
    rw [hr1]
    simp [lookupCmds_setCmds]
  refine ⟨?_, ?_, hmem, ?_, ?_⟩
  · rw [hr1]
  · rw [hr1]
  · rw [hr1]
    simp [Tools.handle_run_bash, hsafe', hdeny, hallow, hproj,
      lookupCmds_setCmds, hnone]
  · rw [hr1]
    simp [Tools.handle_run_bash, hsafe', hdeny, hallow, hproj,
      lookupCmds_setCmds, hnone]

/-- C8 witness: `"ls -la"`, remembered via `"ya"`, then re-run in the same
project without a prompt. -/
theorem c8_remember_and_reuse_witness :
    (Tools.handle_run_bash "ls -la" Tools.Mode.defaultMode ⟨[], [], []⟩
       ⟨"/proj", "ya", fun _ => "total 0"⟩).output = "total 0" ∧
    "ls -la" ∈ Tools.lookupCmds
      (Tools.handle_run_bash "ls -la" Tools.Mode.defaultMode ⟨[], [], []⟩
         ⟨"/proj", "ya", fun _ => "total 0"⟩).perms.allowedCmds "/proj" ∧
    (Tools.handle_run_bash "ls -la" Tools.Mode.defaultMode
        (Tools.handle_run_bash "ls -la" Tools.Mode.defaultMode ⟨[], [], []⟩
           ⟨"/proj", "ya", fun _ => "total 0"⟩).perms
        ⟨"/proj", "n", fun _ => "total 0"⟩).effects =
      [Tools.Effect.validateCommand "ls -la", Tools.Effect.runCmd "ls -la"] := by
  have h := c8_remember_and_reuse "ls -la" ⟨[], [], []⟩
    ⟨"/proj", "ya", fun _ => "total 0"⟩ ⟨"/proj", "n", fun _ => "total 0"⟩
    (by decide) rfl rfl (by decide) rfl rfl
  exact ⟨h.2.1, h.2.2.1, h.2.2.2.1⟩

/-- C7 counterexample: sanitize is not idempotent.  Removing the leftmost
`javascript:` from `"jjavascript:avascript:"` splices the surrounding
characters into a brand-new `javascript:`, which only a second pass
removes — so sanitizing twice differs from sanitizing once on an accepted
(22-character) input. -/
theorem c7_counterexample :
    InputValidator.sanitize "jjavascript:avascript:" =
      Except.ok "javascript:" ∧
    InputValidator.sanitize "javascript:" = Except.ok "" ∧
    ¬ ((InputValidator.sanitize "jjavascript:avascript:").bind
          InputValidator.sanitize =
        InputValidator.sanitize "jjavascript:avascript:") :=
  ⟨rfl, rfl, by decide⟩

/-- C7 amended: sanitize returns an already-clean input unchanged — one
with no removable control characters, no occurrence of the script-block,
`javascript:` or `data:text/html` patterns, and whitespace already in
normalized form (single spaces, no leading/trailing whitespace). -/
theorem c7_amended_clean_unchanged (s : String)
    (hlen : s.toList.length ≤ InputValidator.max_input_length)
    (hctrl : ∀ c ∈ s.toList, InputValidator.isCtrlRemoved c = false)
    (hscript : matchesAnywhere InputValidator.scriptStep s.toList = false)
    (hjs : matchesAnywhere (litStep "javascript:".toList) s.toList = false)
    (hdata : matchesAnywhere (litStep "data:text/html".toList) s.toList = false)
    (hws : normWs s.toList = s.toList) :
    InputValidator.sanitize s = Except.ok s := by
  unfold InputValidator.sanitize
  rw [if_neg (Nat.not_lt.mpr hlen)]
  have h1 : InputValidator.removeCtrl s.toList = s.toList :=
    List.filter_eq_self.mpr (by intro a ha; simp [hctrl a ha])
  have h2 : InputValidator.removeScript s.toList = s.toList :=
    scanRemove_of_no_match _ _ _ le_rfl hscript
  have h3 : InputValidator.removeJsUrl s.toList = s.toList :=
    scanRemove_of_no_match _ _ _ le_rfl hjs
  have h4 : InputValidator.removeDataUrl s.toList = s.toList :=
    scanRemove_of_no_match _ _ _ le_rfl hdata
  rw [InputValidator.sanitizeList, h1, h2, h3, h4, hws]
  rfl

/-- C7 amended witness: the clean string `"hello world"` is returned
unchanged. -/
theorem c7_amended_clean_unchanged_witness :
    InputValidator.sanitize "hello world" = Except.ok "hello world" :=
  c7_amended_clean_unchanged "hello world" (by decide) (by decide)
    (by decide) (by decide) (by decide) (by decide)

end Grok
